import Mathlib

/-!
Formal model of `management/dns_update.py` (the DNS zone synthesis,
change-detection and signing-lifecycle engine of a mail appliance).

The Python functions are embedded shallowly: filesystem contents and the
results of external processes appear as explicit parameters, machine
strings are Lean `String`s (the zone data handled by the program is ASCII,
so the ASCII readings of the regex classes `\d` and `\s` coincide with
Python's), and code that can raise an exception returns an `Option`.
-/

namespace DnsUpdate

/-- Characters matched by the regex class `\s` on the ASCII range:
space, tab, newline, carriage return, vertical tab, form feed. -/
def isSpaceRe (c : Char) : Bool :=
  c = ' ' || c = '\t' || c = '\n' || c = '\x0d' || c = '\x0b' || c = '\x0c'

/-- Value of Python `int(s)` for a string of decimal digits. -/
def natOfDigits (cs : List Char) : Nat :=
  cs.foldl (fun n c => 10 * n + (c.toNat - 48)) 0

/-- Value of Python `int(s)` for a `String` of decimal digits. -/
def strToNat (s : String) : Nat := natOfDigits s.data

/-- Python string comparison `s < t` on the underlying characters:
lexicographic by code point. -/
def pyStrLtL : List Char → List Char → Bool
  | [], [] => false
  | [], _ :: _ => true
  | _ :: _, [] => false
  | a :: as, b :: bs => if a < b then true else if b < a then false else pyStrLtL as bs

/-- Python string comparison `s < t`. -/
def pyStrLt (s t : String) : Bool := pyStrLtL s.data t.data

/-- Python string comparison `s >= t`. -/
def pyStrGe (s t : String) : Bool := ! pyStrLt s t

/-- Python `s.endswith(t)`. -/
def pyEndsWith (s t : String) : Bool := t.data.isSuffixOf s.data

/-- Driver of Python `s.replace(old, new)` for a non-empty `old`: scan left
to right replacing non-overlapping occurrences.  Every step consumes at
least one character, so fuel equal to the scanned length makes this total
and exact. -/
def pyReplaceAux (old new : List Char) : Nat → List Char → List Char
  | 0, s => s
  | fuel + 1, s =>
    match s with
    | [] => []
    | c :: cs =>
      if old.isPrefixOf (c :: cs) then new ++ pyReplaceAux old new fuel ((c :: cs).drop old.length)
      else c :: pyReplaceAux old new fuel cs

/-- Python `s.replace(old, new)`: all non-overlapping occurrences, scanned
left to right; an empty `old` inserts `new` at every character boundary. -/
def pyReplace (s old new : String) : String :=
  match old.data with
  | [] => String.mk (new.data ++ s.data.flatMap (fun c => c :: new.data))
  | _ :: _ => String.mk (pyReplaceAux old.data new.data s.data.length s.data)

/-- Python `s.strip()` on the ASCII whitespace range. -/
def pyStrip (s : String) : String :=
  String.mk (((s.data.dropWhile isSpaceRe).reverse.dropWhile isSpaceRe).reverse)

/-- Model of a `datetime.datetime` value (proleptic Gregorian calendar,
second precision; the program never uses finer precision in comparisons
that matter here). -/
structure DateTime where
  year : Nat
  month : Nat
  day : Nat
  hour : Nat
  minute : Nat
  second : Nat
deriving DecidableEq, Repr

/-- Gregorian leap-year rule. -/
def isLeap (y : Nat) : Bool := (y % 4 = 0 && y % 100 ≠ 0) || y % 400 = 0

/-- Number of days of month `m` (1-based) in year `y`. -/
def daysInMonth (y m : Nat) : Nat :=
  if m = 2 then (if isLeap y then 29 else 28)
  else if m = 4 || m = 6 || m = 9 || m = 11 then 30 else 31

/-- Days in the months strictly before month `m` (1-based) of year `y`. -/
def daysBeforeMonth (y m : Nat) : Nat :=
  (List.range (m - 1)).foldl (fun acc i => acc + daysInMonth y (i + 1)) 0

/-- Days from 0001-01-01 to the given civil date (proleptic Gregorian). -/
def daysFromCivil (y m d : Nat) : Nat :=
  365 * (y - 1) + (y - 1) / 4 - (y - 1) / 100 + (y - 1) / 400 + daysBeforeMonth y m + (d - 1)

/-- Seconds since 0001-01-01 00:00:00.  Differences of these values are
exactly the `timedelta`s computed by `datetime` subtraction. -/
def DateTime.toSecs (t : DateTime) : Nat :=
  86400 * daysFromCivil t.year t.month t.day + 3600 * t.hour + 60 * t.minute + t.second

/-- Model of `datetime.datetime.strptime(s, "%Y%m%d%H%M%S")` on a 14-digit
string: fixed-width fields, `none` when the fields do not form a valid
datetime (Python raises `ValueError`). -/
def strptime14 (s : String) : Option DateTime :=
  let cs := s.data
  if cs.length = 14 ∧ cs.all Char.isDigit then
    let y := natOfDigits (cs.take 4)
    let mo := natOfDigits ((cs.drop 4).take 2)
    let d := natOfDigits ((cs.drop 6).take 2)
    let h := natOfDigits ((cs.drop 8).take 2)
    let mi := natOfDigits ((cs.drop 10).take 2)
    let sec := natOfDigits ((cs.drop 12).take 2)
    if 1 ≤ y ∧ 1 ≤ mo ∧ mo ≤ 12 ∧ 1 ≤ d ∧ d ≤ daysInMonth y mo ∧ h ≤ 23 ∧ mi ≤ 59 ∧ sec ≤ 59
    then some ⟨y, mo, d, h, mi, sec⟩
    else none
  else none

/-- Left-pad the decimal representation of `n` with zeros to width `w`. -/
def padZero (w n : Nat) : String :=
  let s := toString n
  String.mk (List.replicate (w - s.length) '0') ++ s

/-- Model of `datetime.datetime.now().strftime("%Y%m%d00")`: the date-based
candidate serial number (dns_update.py line 293). -/
def dateSerial (now : DateTime) : String :=
  padZero 4 now.year ++ padZero 2 now.month ++ padZero 2 now.day ++ "00"

/-- Match of the regex `(\d+)\s*;\s*serial number` anchored at the start of
`cs`; on success returns `(group 0, group 1)`.  Since no whitespace or `;`
is a digit and no digit is whitespace, the greedy maximal-munch scan below
is exactly the backtracking regex semantics. -/
def matchSerialAt (cs : List Char) : Option (List Char × List Char) :=
  let ds := cs.takeWhile Char.isDigit
  if ds.isEmpty then none else
  let r1 := cs.dropWhile Char.isDigit
  let w1 := r1.takeWhile isSpaceRe
  match r1.dropWhile isSpaceRe with
  | ';' :: r3 =>
    let w2 := r3.takeWhile isSpaceRe
    let r4 := r3.dropWhile isSpaceRe
    if "serial number".data.isPrefixOf r4 then
      some (ds ++ w1 ++ ';' :: w2 ++ "serial number".data, ds)
    else none
  | _ => none

/-- Model of `re.search(r"(\d+)\s*;\s*serial number", s)`: the leftmost
match, as `(group 0, group 1)` (dns_update.py line 299). -/
def searchSerialL : List Char → Option (List Char × List Char)
  | [] => none
  | c :: cs =>
    match matchSerialAt (c :: cs) with
    | some r => some r
    | none => searchSerialL cs

/-- String version of `searchSerialL`. -/
def searchSerial (s : String) : Option (String × String) :=
  (searchSerialL s.data).map (fun p => (String.mk p.1, String.mk p.2))

/-- Consume one-or-more characters satisfying `p`; `none` if the first
character fails (regex `X+` for a single-character class `X`). -/
def munch1 (p : Char → Bool) (cs : List Char) : Option (List Char) :=
  if (cs.takeWhile p).isEmpty then none else some (cs.dropWhile p)

/-- Consume the literal `lit` (regex literal text). -/
def dropLit (lit : List Char) (cs : List Char) : Option (List Char) :=
  if lit.isPrefixOf cs then some (cs.drop lit.length) else none

/-- Match of `\sRRSIG\s+SOA\s+\d+\s+\d+\s\d+\s+(\d{14})` anchored at the
start of `cs`: returns the 14-digit capture and the remainder after the
match.  The character classes are mutually exclusive, so maximal munch is
again exactly the regex semantics. -/
def matchRRSIGAt (cs : List Char) : Option (String × List Char) :=
  match cs with
  | [] => none
  | c :: cs1 =>
    if isSpaceRe c then
      match dropLit "RRSIG".data cs1 with
      | none => none
      | some r1 =>
      match munch1 isSpaceRe r1 with
      | none => none
      | some r2 =>
      match dropLit "SOA".data r2 with
      | none => none
      | some r3 =>
      match munch1 isSpaceRe r3 with
      | none => none
      | some r4 =>
      match munch1 Char.isDigit r4 with
      | none => none
      | some r5 =>
      match munch1 isSpaceRe r5 with
      | none => none
      | some r6 =>
      match munch1 Char.isDigit r6 with
      | none => none
      | some r7 =>
      match r7 with
      | [] => none
      | c2 :: r8 =>
        if isSpaceRe c2 then
          match munch1 Char.isDigit r8 with
          | none => none
          | some r9 =>
          match munch1 isSpaceRe r9 with
          | none => none
          | some r10 =>
            let g := r10.take 14
            if g.length = 14 ∧ g.all Char.isDigit then some (String.mk g, r10.drop 14)
            else none
        else none
    else none

/-- Driver of `re.findall`: scan left to right collecting non-overlapping
matches.  Every step consumes at least one character, so fuel equal to the
length of the scanned text makes this total and exact. -/
def findallRRSIGAux : Nat → List Char → List String
  | 0, _ => []
  | _ + 1, [] => []
  | fuel + 1, c :: cs =>
    match matchRRSIGAt (c :: cs) with
    | some (g, rest) => g :: findallRRSIGAux fuel rest
    | none => findallRRSIGAux fuel cs

/-- Model of `re.findall(r"\sRRSIG\s+SOA\s+\d+\s+\d+\s\d+\s+(\d{14})", s)`
(dns_update.py line 280). -/
def findallRRSIG (s : String) : List String := findallRRSIGAux s.data.length s.data

/-- Model of Python `min` over a list of strings: the first minimum under
code-point lexicographic comparison; `none` on the empty list. -/
def minStr : List String → Option String
  | [] => none
  | x :: xs => some (xs.foldl (fun a b => if pyStrLt b a then b else a) x)

/-- A DNS resource record as built by `build_zone`: `(qname, rtype, value)`
with `none` qname denoting the zone apex (Python `None`). -/
abbrev ZRec := Option String × String × String

/-- Zone text rendered by `write_nsd_zone` before the serial is substituted
(dns_update.py lines 241-262): the `$ORIGIN`/`$TTL`/SOA header — with the
`.format` substitutions of `domain` and `primary_domain` already applied —
holding the `__SERIAL__` placeholder, followed by one line per record.  A
falsy qname (Python `None`, or the empty string) prints nothing before the
first tab. -/
def render_zone (domain primary : String) (records : List ZRec) : String :=
  let header :=
    "\n$ORIGIN " ++ domain ++ ".\n$TTL 86400           ; default time to live\n\n@ IN SOA ns1."
      ++ primary ++ ". hostmaster." ++ primary
      ++ ". (\n           __SERIAL__     ; serial number\n           28800       ; Refresh\n           7200        ; Retry\n           864000      ; Expire\n           86400       ; Min TTL\n           )\n"
  records.foldl
    (fun zone r =>
      zone ++ (match r.1 with | none => "" | some s => s) ++ "\tIN\t" ++ r.2.1 ++ "\t" ++ r.2.2 ++ "\n")
    header

/-- Forced-bump decision of `write_nsd_zone` (dns_update.py lines 269-290),
as a function of the `.signed` artifact's contents (`none` while no signed
file exists) and the current time.  Returns `none` when `strptime` would
raise `ValueError` on the soonest expiration string. -/
def force_bump (signedContents : Option String) (now : DateTime) : Option Bool :=
  match signedContents with
  | none => some true
  | some signed_zone =>
    let expiration_times := findallRRSIG signed_zone
    if expiration_times.isEmpty then some true
    else
      match minStr expiration_times with
      | none => some true
      | some e =>
        match strptime14 e with
        | none => none
        | some expiration_time =>
          some (decide ((expiration_time.toSecs : Int) - (now.toSecs : Int) < 3 * 86400))

/-- Result of one `write_nsd_zone` call: `written` holds the new file
contents when a write happens, `changed` is the Python return value. -/
structure WriteResult where
  written : Option String
  changed : Bool
deriving DecidableEq, Repr

/-- Model of `write_nsd_zone(domain, zonefile, records, env)` (dns_update.py
lines 233-324).  `existing` is the zone file's contents when the file
exists, `signedContents` the `.signed` artifact's contents when it exists.
Returns `none` when the Python code would raise. -/
def write_nsd_zone (domain primary : String) (records : List ZRec)
    (existing : Option String) (signedContents : Option String) (now : DateTime) :
    Option WriteResult :=
  let zone := render_zone domain primary records
  match force_bump signedContents now with
  | none => none
  | some fb =>
    let serial := dateSerial now
    match existing with
    | none => some ⟨some (pyReplace zone "__SERIAL__" serial), true⟩
    | some existing_zone =>
      match searchSerial existing_zone with
      | none => some ⟨some (pyReplace zone "__SERIAL__" serial), true⟩
      | some (g0, existing_serial) =>
        let existing_zone' := pyReplace existing_zone g0 "__SERIAL__     ; serial number"
        if zone = existing_zone' ∧ fb = false then some ⟨none, false⟩
        else
          let serial' :=
            if pyStrGe existing_serial serial then toString (strToNat existing_serial + 1)
            else serial
          some ⟨some (pyReplace zone "__SERIAL__" serial'), true⟩

/-- Inputs of one zone in the `do_dns_update` loop. -/
structure ZoneTask where
  domain : String
  records : List ZRec
  existing : Option String
  signedContents : Option String

/-- Zone-update loop and summary of `do_dns_update` (dns_update.py lines
63-124): run `write_nsd_zone` for every zone, collect the domains reported
changed, add the `"DNS configuration"` marker when the nsd.conf write
reported a change and no domain did, and produce the summary string the
function returns.  The first component lists each zone's written contents
(`none` when the zone file was left untouched). -/
def do_dns_update_model (primary : String) (now : DateTime) (nsdConfChanged : Bool)
    (zones : List ZoneTask) : Option (List (Option String) × String) :=
  match zones.mapM
      (fun z => write_nsd_zone z.domain primary z.records z.existing z.signedContents now) with
  | none => none
  | some results =>
    let updated_domains :=
      (zones.zip results).filterMap (fun p => if p.2.changed then some p.1.domain else none)
    let updated_domains :=
      if nsdConfChanged ∧ updated_domains.isEmpty then ["DNS configuration"] else updated_domains
    let summary :=
      if updated_domains.isEmpty then ""
      else "updated DNS: " ++ String.intercalate "," updated_domains ++ "\n"
    some (results.map (fun r => r.written), summary)

/-- Zone-apex scan of `get_dns_zones` (dns_update.py lines 26-34): process
the domains shortest first, accepting a domain as a new apex unless an
already-accepted domain is a dot-boundary ancestor of it (Python's
`for`/`break`/`else` over the accepted set is the `any` below; adding to
the accepted set is modelled by appending, the input being duplicate-free). -/
def zone_domains_scan (acc : List String) : List String → List String
  | [] => acc
  | domain :: rest =>
    if acc.any (fun d => pyEndsWith domain ("." ++ d)) then zone_domains_scan acc rest
    else zone_domains_scan (acc ++ [domain]) rest

/-- Set of zone apexes computed by `get_dns_zones`, given the in-use
domains listed in increasing length (`sorted(domains, key=len)`; the tie
order among equal lengths is the set's unspecified iteration order, so the
theorems hold for every length-sorted order).  The rest of
`get_dns_zones` only pairs each apex with a filename and re-sorts the
list, which does not change this set of apexes. -/
def get_dns_zones_domains (domains : List String) : List String := zone_domains_scan [] domains

/-- Appliance settings consulted by `build_zone` (the `env` dict).
`PUBLIC_IPV6` is `none` when the key is absent; `env.get('PUBLIC_IPV6')`
truthiness also treats an empty string as unset (see `Env.ipv6Truthy`).
`certhash` stands for the SHA-256 certificate digest that
`build_tlsa_record` obtains from the external `openssl` call. -/
structure Env where
  PRIMARY_HOSTNAME : String
  PUBLIC_IP : String
  PUBLIC_IPV6 : Option String
  certhash : String

/-- Truthiness of `env.get('PUBLIC_IPV6')`. -/
def Env.ipv6Truthy (env : Env) : Bool :=
  match env.PUBLIC_IPV6 with
  | none => false
  | some s => s ≠ ""

/-- Model of `build_tlsa_record` (dns_update.py lines 208-229) with the
certificate digest supplied by the environment. -/
def build_tlsa_record (env : Env) : String := "3 0 1 " ++ env.certhash

/-- User override value from `custom.yaml`: a bare string (Python `str`,
implying record type A) or a type-to-value mapping (Python `dict`, in
insertion order). -/
inductive OverrideVal where
  | str (s : String)
  | map (entries : List (String × String))
deriving DecidableEq, Repr

/-- Model of the inner helper `has_rec(qname, rtype)` (dns_update.py lines
163-167). -/
def has_rec (records : List ZRec) (qname : Option String) (rtype : String) : Bool :=
  records.any (fun rec => rec.1 = qname && rec.2.1 = rtype)

/-- Model of the call `has_rec(qname, value)` on line 176, where `value` is
the raw override *value* (a string or a dict), not a record type: in Python
comparing a record's type string to a dict is always `False`, and to a bare
string succeeds only when that value string itself occurs as a type. -/
def has_rec_value (records : List ZRec) (qname : Option String) : OverrideVal → Bool
  | .str s => has_rec records qname s
  | .map _ => false

/-- Step 1 of `build_zone` (dns_update.py lines 131-141): NS records only
for top-level builds, then the MX record and the SPF TXT record
unconditionally. -/
def base_records (env : Env) (with_ns : Bool) : List ZRec :=
  (if with_ns then
    [(none, "NS", "ns1." ++ env.PRIMARY_HOSTNAME ++ "."),
     (none, "NS", "ns2." ++ env.PRIMARY_HOSTNAME ++ ".")]
   else [])
  ++ [(none, "MX", "10 " ++ env.PRIMARY_HOSTNAME ++ "."),
      (none, "TXT", "\"v=spf1 mx -all\"")]

/-- Step 3 of `build_zone` (lines 154-161): nameserver A records and the
DANE TLSA record when this zone is the primary hostname's. -/
def primary_records (env : Env) (domain : String) : List ZRec :=
  if domain = env.PRIMARY_HOSTNAME then
    [(some "ns1", "A", env.PUBLIC_IP), (some "ns2", "A", env.PUBLIC_IP),
     (some "_25._tcp", "TLSA", build_tlsa_record env)]
  else []

/-- Step 4 of `build_zone` (lines 169-182): the user-override merge loop,
appending to the record list built so far. -/
def apply_overrides (domain : String) (additional_records : List (String × OverrideVal))
    (records : List ZRec) : List ZRec :=
  additional_records.foldl (fun records qv =>
    let qname := qv.1
    let value := qv.2
    if qname ≠ domain ∧ pyEndsWith qname ("." ++ domain) = false then records
    else
      let qname' : Option String :=
        if qname = domain then none
        else some (String.mk (qname.data.take (qname.length - ("." ++ domain).length)))
      if has_rec_value records qname' value then records
      else
        match value with
        | .str s => records ++ [(qname', "A", s)]
        | .map entries => records ++ entries.map (fun tv =>
            (qname', tv.1, if tv.1 = "TXT" then "\"" ++ tv.2 ++ "\"" else tv.2))) records

/-- Step 5 of `build_zone` (lines 184-188): fill in the apex and `www`
A/AAAA defaults not already present. -/
def add_defaults (env : Env) (records : List ZRec) : List ZRec :=
  let records := records ++
    (if has_rec records none "A" = false then [(none, "A", env.PUBLIC_IP)] else [])
  let records := records ++
    (if env.ipv6Truthy ∧ has_rec records none "AAAA" = false then
      [(none, "AAAA", env.PUBLIC_IPV6.getD "")] else [])
  let records := records ++
    (if has_rec records (some "www") "A" = false then [(some "www", "A", env.PUBLIC_IP)] else [])
  let records := records ++
    (if env.ipv6Truthy ∧ has_rec records (some "www") "AAAA" = false then
      [(some "www", "AAAA", env.PUBLIC_IPV6.getD "")] else [])
  records

/-- Step 6 of `build_zone` (lines 190-199): the DKIM TXT record parsed from
the OpenDKIM record file, plus the DMARC policy record, when the file
exists. -/
def dkim_records : Option (String × String) → List ZRec
  | none => []
  | some dk => [(some dk.1, "TXT", dk.2), (some "_dmarc", "TXT", "\"v=DMARC1; p=quarantine\"")]

/-- Model of `build_zone(domain, subdomains, additional_records, env,
with_ns)` (dns_update.py lines 128-199) before the final sort on line 202:
the sequential mutation of the Python `records` list, spelled as the
composition of the step functions above (step 2, the subdomain expansion of
lines 143-152, is inlined since it holds the recursive call).  `dkim` is
the parsed `(qname, value)` pair of the OpenDKIM record file when that file
exists (`none` otherwise).  The recursive subdomain expansion calls itself
with no subdomains, no overrides and `with_ns=False`, exactly as on line
147 — so the recursion depth is exactly two, and the structural `fuel`
argument (2 at top level, see `build_zone_unsorted`) is never exhausted. -/
def build_zone_records (env : Env) (dkim : Option (String × String)) :
    Nat → String → List String → List (String × OverrideVal) → Bool → List ZRec
  | 0, _, _, _, _ => []
  | fuel + 1, domain, subdomains, additional_records, with_ns =>
  let records := base_records env with_ns
  let records := records ++ subdomains.flatMap (fun subdomain =>
    let subdomain_qname := String.mk (subdomain.data.take (subdomain.length - (domain.length + 1)))
    (build_zone_records env dkim fuel subdomain [] [] false).map (fun child =>
      match child.1 with
      | none => (some subdomain_qname, child.2.1, child.2.2)
      | some q => (some (q ++ "." ++ subdomain_qname), child.2.1, child.2.2)))
  let records := records ++ primary_records env domain
  let records := apply_overrides domain additional_records records
  let records := add_defaults env records
  records ++ dkim_records dkim

/-- Record list of `build_zone` before the final sort.  Fuel 2 is exact:
the only recursive call (subdomain expansion) passes an empty subdomain
list, so its own expansion step is a no-op for any fuel. -/
def build_zone_unsorted (env : Env) (dkim : Option (String × String)) (domain : String)
    (subdomains : List String) (additional_records : List (String × OverrideVal))
    (with_ns : Bool) : List ZRec :=
  build_zone_records env dkim 2 domain subdomains additional_records with_ns

/-- Model of Python `qname.split(".")` on the underlying characters
(separator always present, empty pieces preserved, `"".split(".")` is a
singleton empty piece). -/
def splitDot : List Char → List (List Char)
  | [] => [[]]
  | c :: cs =>
    if c = '.' then [] :: splitDot cs
    else
      match splitDot cs with
      | [] => [[c]]
      | p :: ps => (c :: p) :: ps

/-- Sort key of dns_update.py line 202:
`list(reversed(rec[0].split("."))) if rec[0] is not None else ""` — and
`list("")` is the empty list, so apex records receive the least key.  The
key order is Python's list/string comparison, i.e. the lexicographic order
on `List (List Char)` by code point. -/
def sortKey (rec : ZRec) : List (List Char) :=
  match rec.1 with
  | none => []
  | some q => (splitDot q.data).reverse

/-- Key comparison underlying the stable ascending `records.sort(key=...)`. -/
def recLE (a b : ZRec) : Prop := sortKey a ≤ sortKey b

instance : DecidableRel recLE := fun a b => inferInstanceAs (Decidable (sortKey a ≤ sortKey b))

instance : IsTotal ZRec recLE := ⟨fun a b => le_total (sortKey a) (sortKey b)⟩

instance : IsTrans ZRec recLE := ⟨fun _ _ _ => le_trans⟩

/-- Model of `build_zone` including the final sort (line 202).  Python's
`list.sort` is a stable ascending sort by key; a stable sort with respect
to `recLE` is unique, and `List.insertionSort` is stable, so this is an
exact model of the sorted result. -/
def build_zone (env : Env) (dkim : Option (String × String)) (domain : String)
    (subdomains : List String) (additional_records : List (String × OverrideVal))
    (with_ns : Bool) : List ZRec :=
  (build_zone_unsorted env dkim domain subdomains additional_records with_ns).insertionSort recLE

/-- Error raised out of `sign_zone`. -/
inductive SignError where
  /-- Exception "DNSSEC is not properly set up." (lines 386, 391). -/
  | notSetUp
  /-- Non-zero exit of `ldns-signzone` or `ldns-key2ds` (`shell` raises). -/
  | toolFailed
deriving DecidableEq, Repr

/-- Outcome of a `sign_zone` run, tracking the specialized temporary key
files: which were created under `/tmp`, which were deleted before the
function returned, and the error (if any) that propagated. -/
structure SignOutcome where
  created : List String
  deleted : List String
  error : Option SignError
deriving DecidableEq, Repr

/-- Python `dict.get` on an association list with unique keys. -/
def dictGet (d : List (String × String)) (k : String) : Option String :=
  (d.find? (fun p => p.1 = k)).map (fun p => p.2)

/-- One iteration of the key-specialization loop of `sign_zone`
(dns_update.py lines 385-402) for the key role `key`: returns the temp
files created (in creation order) and the error, if any, that interrupted
the iteration.  `exists` is the filesystem oracle for the generic key
files; `os.path.join` of the storage root is string concatenation here. -/
def specializeKey (storage domain : String) (dnssec_keys : List (String × String))
    (exists_ : String → Bool) (key : String) : List String × Option SignError :=
  match dictGet dnssec_keys key with
  | none => ([], some .notSetUp)
  | some keyval =>
    if pyStrip keyval = "" then ([], some .notSetUp)
    else
      let oldkeyfn := storage ++ "/dns/dnssec/" ++ keyval
      let newkeyfn := "/tmp/" ++ pyReplace keyval "_domain_" domain
      if exists_ (oldkeyfn ++ ".private") = false then ([], some .notSetUp)
      else if exists_ (oldkeyfn ++ ".key") = false then
        ([newkeyfn ++ ".private"], some .notSetUp)
      else ([newkeyfn ++ ".private", newkeyfn ++ ".key"], none)

/-- Model of `sign_zone(domain, zonefile, env)` (dns_update.py lines
372-435).  The two key roles are specialized in order ("KSK", "ZSK"); then
the external signer runs (`signOk` tells whether it succeeds), then the DS
derivation (`dsOk`); the temp files are unlinked only by the loop at lines
434-435 at the very end of the function body. -/
def sign_zone (storage domain : String) (dnssec_keys : List (String × String))
    (exists_ : String → Bool) (signOk dsOk : Bool) : SignOutcome :=
  let ksk := specializeKey storage domain dnssec_keys exists_ "KSK"
  match ksk.2 with
  | some e => ⟨ksk.1, [], some e⟩
  | none =>
    let zsk := specializeKey storage domain dnssec_keys exists_ "ZSK"
    let files_to_kill := ksk.1 ++ zsk.1
    match zsk.2 with
    | some e => ⟨files_to_kill, [], some e⟩
    | none =>
      if signOk = false then ⟨files_to_kill, [], some .toolFailed⟩
      else if dsOk = false then ⟨files_to_kill, [], some .toolFailed⟩
      else ⟨files_to_kill, files_to_kill, none⟩

/-! Helper lemmas about digit strings and the Python comparisons. -/

theorem char_lt_toNat {a b : Char} (h : a < b) : a.toNat < b.toNat := by
  simpa [Char.toNat, UInt32.toNat, UInt32.lt_def, BitVec.lt_def] using h

theorem char_le_of_not_lt_not_gt {a b : Char} (h1 : ¬ a < b) (h2 : ¬ b < a) : a = b :=
  le_antisymm (le_of_not_lt h2) (le_of_not_lt h1)

theorem isDigit_toNat {c : Char} (h : c.isDigit = true) : 48 ≤ c.toNat ∧ c.toNat ≤ 57 := by
  simp only [Char.isDigit, Bool.and_eq_true, decide_eq_true_eq, ge_iff_le] at h
  exact ⟨UInt32.le_toNat_of_le (by decide) h.1, UInt32.toNat_le_of_le (by decide) h.2⟩

theorem foldl_digits (cs : List Char) (n : Nat) :
    cs.foldl (fun n c => 10 * n + (c.toNat - 48)) n
      = n * 10 ^ cs.length + cs.foldl (fun n c => 10 * n + (c.toNat - 48)) 0 := by
  induction cs generalizing n with
  | nil => simp
  | cons c cs ih =>
    simp only [List.foldl_cons, List.length_cons]
    rw [ih (10 * n + (c.toNat - 48)), ih (10 * 0 + (c.toNat - 48))]
    ring

theorem natOfDigits_cons (c : Char) (cs : List Char) :
    natOfDigits (c :: cs) = (c.toNat - 48) * 10 ^ cs.length + natOfDigits cs := by
  simp only [natOfDigits, List.foldl_cons]
  rw [foldl_digits]
  ring_nf

theorem natOfDigits_lt_pow (cs : List Char) (h : ∀ c ∈ cs, c.isDigit = true) :
    natOfDigits cs < 10 ^ cs.length := by
  induction cs with
  | nil => simp [natOfDigits]
  | cons c cs ih =>
    rw [natOfDigits_cons]
    have hd := isDigit_toNat (h c (by simp))
    have hcs := ih (fun x hx => h x (by simp [hx]))
    have h9 : c.toNat - 48 ≤ 9 := by omega
    calc (c.toNat - 48) * 10 ^ cs.length + natOfDigits cs
        < (c.toNat - 48) * 10 ^ cs.length + 10 ^ cs.length := by omega
      _ = (c.toNat - 48 + 1) * 10 ^ cs.length := by ring
      _ ≤ 10 * 10 ^ cs.length := by
          exact Nat.mul_le_mul_right _ (by omega)
      _ = 10 ^ (c :: cs).length := by rw [List.length_cons]; ring

theorem pyStrLtL_imp_lt (as bs : List Char) (hlen : as.length = bs.length)
    (ha : ∀ c ∈ as, c.isDigit = true) (hb : ∀ c ∈ bs, c.isDigit = true)
    (h : pyStrLtL as bs = true) : natOfDigits as < natOfDigits bs := by
  induction as generalizing bs with
  | nil =>
    cases bs with
    | nil => simp [pyStrLtL] at h
    | cons b bs => simp at hlen
  | cons a as ih =>
    cases bs with
    | nil => simp at hlen
    | cons b bs =>
      have hlen' : as.length = bs.length := by simpa using hlen
      rw [natOfDigits_cons, natOfDigits_cons, hlen']
      simp only [pyStrLtL] at h
      by_cases hab : a < b
      · have hda := isDigit_toNat (ha a (by simp))
        have hdb := isDigit_toNat (hb b (by simp))
        have hlt := char_lt_toNat hab
        have hbound := natOfDigits_lt_pow as (fun x hx => ha x (by simp [hx]))
        rw [hlen'] at hbound
        have : (a.toNat - 48) + 1 ≤ b.toNat - 48 := by omega
        calc (a.toNat - 48) * 10 ^ bs.length + natOfDigits as
            < (a.toNat - 48) * 10 ^ bs.length + 10 ^ bs.length := by omega
          _ = ((a.toNat - 48) + 1) * 10 ^ bs.length := by ring
          _ ≤ (b.toNat - 48) * 10 ^ bs.length := Nat.mul_le_mul_right _ this
          _ ≤ (b.toNat - 48) * 10 ^ bs.length + natOfDigits bs := by omega
      · rw [if_neg hab] at h
        by_cases hba : b < a
        · rw [if_pos hba] at h; exact absurd h (by simp)
        · rw [if_neg hba] at h
          have hab' : a = b := char_le_of_not_lt_not_gt hab hba
          subst hab'
          have := ih bs hlen' (fun x hx => ha x (by simp [hx])) (fun x hx => hb x (by simp [hx])) h
          omega

theorem pyStrGe_of_le (es ds : String) (hlen : es.length = ds.length)
    (hes : ∀ c ∈ es.data, c.isDigit = true) (hds : ∀ c ∈ ds.data, c.isDigit = true)
    (h : strToNat ds ≤ strToNat es) : pyStrGe es ds = true := by
  simp only [pyStrGe, pyStrLt, Bool.not_eq_true']
  cases hlt : pyStrLtL es.data ds.data with
  | false => rfl
  | true =>
    have hlen' : es.data.length = ds.data.length := hlen
    have := pyStrLtL_imp_lt es.data ds.data hlen' hes hds hlt
    exact absurd this (by simp only [strToNat] at h; omega)

theorem strToNat_lt_of_not_ge (es ds : String) (hlen : es.length = ds.length)
    (hes : ∀ c ∈ es.data, c.isDigit = true) (hds : ∀ c ∈ ds.data, c.isDigit = true)
    (h : pyStrGe es ds = false) : strToNat es < strToNat ds := by
  simp only [pyStrGe, Bool.not_eq_false', pyStrLt] at h
  exact pyStrLtL_imp_lt es.data ds.data hlen hes hds h

/-! Helper lemmas about `write_nsd_zone`. -/

theorem write_nsd_zone_unchanged (domain primary : String) (records : List ZRec)
    (existing_zone : String) (signedContents : Option String) (now : DateTime)
    (g0 es : String)
    (hs : searchSerial existing_zone = some (g0, es))
    (hfb : force_bump signedContents now = some false)
    (hid : render_zone domain primary records
      = pyReplace existing_zone g0 "__SERIAL__     ; serial number") :
    write_nsd_zone domain primary records (some existing_zone) signedContents now
      = some ⟨none, false⟩ := by
  unfold write_nsd_zone
  rw [hfb]
  dsimp only
  rw [hs]
  dsimp only
  rw [if_pos ⟨hid, rfl⟩]

theorem write_nsd_zone_changed (domain primary : String) (records : List ZRec)
    (existing_zone : String) (signedContents : Option String) (now : DateTime)
    (g0 es : String) (fb : Bool)
    (hs : searchSerial existing_zone = some (g0, es))
    (hfb : force_bump signedContents now = some fb)
    (hneq : ¬ (render_zone domain primary records
        = pyReplace existing_zone g0 "__SERIAL__     ; serial number" ∧ fb = false)) :
    write_nsd_zone domain primary records (some existing_zone) signedContents now
      = some ⟨some (pyReplace (render_zone domain primary records) "__SERIAL__"
          (if pyStrGe es (dateSerial now) then toString (strToNat es + 1)
           else dateSerial now)), true⟩ := by
  unfold write_nsd_zone
  rw [hfb]
  dsimp only
  rw [hs]
  dsimp only
  rw [if_neg hneq]

theorem mapM_write_eq (primary : String) (now : DateTime) :
    ∀ (zones : List ZoneTask),
    (∀ z ∈ zones,
      write_nsd_zone z.domain primary z.records z.existing z.signedContents now
        = some ⟨none, false⟩) →
    zones.mapM (fun z => write_nsd_zone z.domain primary z.records z.existing z.signedContents now)
      = some (zones.map fun _ => (⟨none, false⟩ : WriteResult))
  | [], _ => rfl
  | z :: zs, h => by
    rw [List.mapM_cons, h z (List.mem_cons_self z zs),
      mapM_write_eq primary now zs (fun x hx => h x (List.mem_cons_of_mem z hx))]
    rfl

theorem do_update_all_unchanged (primary : String) (now : DateTime) (zones : List ZoneTask)
    (h : ∀ z ∈ zones,
      write_nsd_zone z.domain primary z.records z.existing z.signedContents now
        = some ⟨none, false⟩) :
    do_dns_update_model primary now false zones = some (zones.map fun _ => none, "") := by
  unfold do_dns_update_model
  rw [mapM_write_eq primary now zones h]
  dsimp only
  have hfm : (zones.zip (zones.map fun _ => (⟨none, false⟩ : WriteResult))).filterMap
      (fun p => if p.2.changed then some p.1.domain else none) = [] := by
    rw [List.filterMap_eq_nil_iff]
    intro p hp
    obtain ⟨-, h2⟩ := List.of_mem_zip hp
    simp only [List.mem_map] at h2
    obtain ⟨-, -, hh⟩ := h2
    rw [← hh]
    rfl
  rw [hfm]
  simp [List.map_map, Function.comp_def]

/-- Claim C1: when the previously written zone file exists, its serial line
parses, the newly rendered zone equals the existing file after the serial
field is replaced by the placeholder in both, and no forced re-sign is
pending, `write_nsd_zone` performs no write and returns False; consequently
a run in which every zone is in that state (and nsd.conf is unchanged)
writes no zone file and returns the empty summary. -/
theorem claim1_idempotent_unchanged :
    (∀ (domain primary : String) (records : List ZRec) (existing_zone : String)
        (signedContents : Option String) (now : DateTime) (g0 es : String),
      searchSerial existing_zone = some (g0, es) →
      force_bump signedContents now = some false →
      render_zone domain primary records
        = pyReplace existing_zone g0 "__SERIAL__     ; serial number" →
      write_nsd_zone domain primary records (some existing_zone) signedContents now
        = some ⟨none, false⟩)
    ∧ (∀ (primary : String) (now : DateTime) (zones : List ZoneTask),
      (∀ z ∈ zones, ∃ ez g0 es, z.existing = some ez ∧ searchSerial ez = some (g0, es) ∧
        force_bump z.signedContents now = some false ∧
        render_zone z.domain primary z.records
          = pyReplace ez g0 "__SERIAL__     ; serial number") →
      do_dns_update_model primary now false zones = some (zones.map (fun _ => none), "")) := by
  constructor
  · intro domain primary records existing_zone signedContents now g0 es hs hfb hid
    exact write_nsd_zone_unchanged domain primary records existing_zone signedContents now
      g0 es hs hfb hid
  · intro primary now zones h
    apply do_update_all_unchanged
    intro z hz
    obtain ⟨ez, g0, es, hez, hs, hfb, hid⟩ := h z hz
    rw [hez]
    exact write_nsd_zone_unchanged z.domain primary z.records ez z.signedContents now
      g0 es hs hfb hid

set_option maxRecDepth 200000 in
/-- Witness for C1 at a concrete zone whose file carries serial 2024060100,
whose signature expires in ten days, and whose rendered text is unchanged. -/
theorem claim1_witness :
    write_nsd_zone "a" "b" []
        (some (pyReplace (render_zone "a" "b" []) "__SERIAL__" "2024060100"))
        (some " RRSIG SOA 7 2 86400 20240611000000") ⟨2024, 6, 1, 0, 0, 0⟩
      = some ⟨none, false⟩
    ∧ do_dns_update_model "b" ⟨2024, 6, 1, 0, 0, 0⟩ false
        [⟨"a", [], some (pyReplace (render_zone "a" "b" []) "__SERIAL__" "2024060100"),
          some " RRSIG SOA 7 2 86400 20240611000000"⟩]
      = some ([none], "") := by
  constructor
  · exact claim1_idempotent_unchanged.1 "a" "b" []
      (pyReplace (render_zone "a" "b" []) "__SERIAL__" "2024060100")
      (some " RRSIG SOA 7 2 86400 20240611000000") ⟨2024, 6, 1, 0, 0, 0⟩
      "2024060100     ; serial number" "2024060100" (by decide) (by decide) (by decide)
  · exact claim1_idempotent_unchanged.2 "b" ⟨2024, 6, 1, 0, 0, 0⟩ _
      (by
        intro z hz
        simp only [List.mem_singleton] at hz
        subst hz
        exact ⟨pyReplace (render_zone "a" "b" []) "__SERIAL__" "2024060100",
          "2024060100     ; serial number", "2024060100", rfl, by decide, by decide, by decide⟩)

set_option maxRecDepth 200000 in
/-- Counterexample to claim C2 as stated: with stored serial `02024060101`
(numerically 2024060101, at least the date-based serial 2024060100) and
changed zone text, the code's Python *string* comparison sees the stored
serial as smaller, so it writes the plain date-based serial — not the
stored serial plus one — and the serial written is numerically smaller
than the stored one. -/
theorem claim2_counterexample :
    strToNat (dateSerial ⟨2024, 6, 1, 0, 0, 0⟩) ≤ strToNat "02024060101"
    ∧ write_nsd_zone "a" "b" []
        (some (pyReplace (render_zone "a" "b" [(some "w", "A", "1.2.3.4")])
          "__SERIAL__" "02024060101"))
        (some " RRSIG SOA 7 2 86400 20990601000000") ⟨2024, 6, 1, 0, 0, 0⟩
      = some ⟨some (pyReplace (render_zone "a" "b" []) "__SERIAL__" "2024060100"), true⟩
    ∧ "2024060100" ≠ toString (strToNat "02024060101" + 1)
    ∧ strToNat "2024060100" < strToNat "02024060101" := by
  exact ⟨by decide, by decide, by decide, by decide⟩

/-- Amended claim C2: for every write of a zone whose stored serial is a
digit string of the same length as the date-based serial (ten digits, as
all serials the renderer itself writes) and numerically at least the
date-based serial, the serial actually written is the stored serial plus
one. -/
theorem claim2_serial_monotonic (domain primary : String) (records : List ZRec)
    (existing_zone : String) (signedContents : Option String) (now : DateTime)
    (g0 es : String) (fb : Bool)
    (hs : searchSerial existing_zone = some (g0, es))
    (hfb : force_bump signedContents now = some fb)
    (hw : ¬ (render_zone domain primary records
        = pyReplace existing_zone g0 "__SERIAL__     ; serial number" ∧ fb = false))
    (hlen : es.length = (dateSerial now).length)
    (hes : ∀ c ∈ es.data, c.isDigit = true)
    (hds : ∀ c ∈ (dateSerial now).data, c.isDigit = true)
    (hge : strToNat (dateSerial now) ≤ strToNat es) :
    write_nsd_zone domain primary records (some existing_zone) signedContents now
      = some ⟨some (pyReplace (render_zone domain primary records) "__SERIAL__"
          (toString (strToNat es + 1))), true⟩ := by
  rw [write_nsd_zone_changed domain primary records existing_zone signedContents now
    g0 es fb hs hfb hw]
  rw [pyStrGe_of_le es (dateSerial now) hlen hes hds hge]
  simp

set_option maxRecDepth 200000 in
/-- Witness for the amended C2, which is also the claim's own concrete
instance: stored serial 2024060199 and date-based serial 2024060100 lead
to a write with serial 2024060200. -/
theorem claim2_witness :
    write_nsd_zone "a" "b" []
        (some (pyReplace (render_zone "a" "b" [(some "w", "A", "1.2.3.4")])
          "__SERIAL__" "2024060199"))
        (some " RRSIG SOA 7 2 86400 20990601000000") ⟨2024, 6, 1, 0, 0, 0⟩
      = some ⟨some (pyReplace (render_zone "a" "b" []) "__SERIAL__" "2024060200"), true⟩ := by
  have h := claim2_serial_monotonic "a" "b" []
    (pyReplace (render_zone "a" "b" [(some "w", "A", "1.2.3.4")]) "__SERIAL__" "2024060199")
    (some " RRSIG SOA 7 2 86400 20990601000000") ⟨2024, 6, 1, 0, 0, 0⟩
    "2024060199     ; serial number" "2024060199" false
    (by decide) (by decide) (by decide) (by decide) (by decide) (by decide) (by decide)
  exact h.trans (by decide)

/-- Claim C3: if no signed artifact exists, or the soonest RRSIG SOA
expiration of the existing signed artifact is within 3 days of now, then
`write_nsd_zone` treats the zone as changed — it writes the file and
returns True even when the zone text is unchanged, and (for stored serials
of the renderer's ten-digit form) the serial advances; conversely, with an
expiration at least 3 days away and unchanged text the zone is not
touched. -/
theorem claim3_forced_bump (domain primary : String) (records : List ZRec)
    (existing_zone : String) (signedContents : Option String) (now : DateTime)
    (g0 es : String)
    (hs : searchSerial existing_zone = some (g0, es))
    (hid : render_zone domain primary records
      = pyReplace existing_zone g0 "__SERIAL__     ; serial number") :
    ((signedContents = none ∨
      (∃ sz e exp, signedContents = some sz ∧ findallRRSIG sz ≠ [] ∧
        minStr (findallRRSIG sz) = some e ∧ strptime14 e = some exp ∧
        (exp.toSecs : Int) - (now.toSecs : Int) < 3 * 86400)) →
      ∃ s', write_nsd_zone domain primary records (some existing_zone) signedContents now
          = some ⟨some (pyReplace (render_zone domain primary records) "__SERIAL__" s'), true⟩
        ∧ (es.length = (dateSerial now).length → (∀ c ∈ es.data, c.isDigit = true) →
           (∀ c ∈ (dateSerial now).data, c.isDigit = true) →
           (s' = toString (strToNat es + 1)
            ∨ (s' = dateSerial now ∧ strToNat es < strToNat (dateSerial now)))))
    ∧ (∀ sz e exp, signedContents = some sz → findallRRSIG sz ≠ [] →
        minStr (findallRRSIG sz) = some e → strptime14 e = some exp →
        3 * 86400 ≤ (exp.toSecs : Int) - (now.toSecs : Int) →
        write_nsd_zone domain primary records (some existing_zone) signedContents now
          = some ⟨none, false⟩) := by
  constructor
  · intro htrig
    have hfb : force_bump signedContents now = some true := by
      rcases htrig with hnone | ⟨sz, e, exp, hsz, hne, hmin, hexp, hlt⟩
      · rw [hnone]; rfl
      · rw [hsz]
        unfold force_bump
        dsimp only
        rw [if_neg (by simp [List.isEmpty_iff, hne]), hmin]
        dsimp only
        rw [hexp]
        simp only [Option.some.injEq, decide_eq_true_eq]
        omega
    refine ⟨if pyStrGe es (dateSerial now) then toString (strToNat es + 1) else dateSerial now,
      write_nsd_zone_changed domain primary records existing_zone signedContents now
        g0 es true hs hfb (by simp), ?_⟩
    intro hlen hes hds
    by_cases hge : pyStrGe es (dateSerial now) = true
    · left; rw [if_pos hge]
    · right
      rw [if_neg (by simpa using hge)]
      exact ⟨rfl, strToNat_lt_of_not_ge es (dateSerial now) hlen hes hds
        (Bool.not_eq_true _ ▸ hge : pyStrGe es (dateSerial now) = false)⟩
  · intro sz e exp hsz hne hmin hexp hge
    have hfb : force_bump signedContents now = some false := by
      rw [hsz]
      unfold force_bump
      dsimp only
      rw [if_neg (by simp [List.isEmpty_iff, hne]), hmin]
      dsimp only
      rw [hexp]
      simp only [Option.some.injEq, decide_eq_false_iff_not, not_lt]
      omega
    exact write_nsd_zone_unchanged domain primary records existing_zone signedContents now
      g0 es hs hfb hid

set_option maxRecDepth 200000 in
/-- Witness for C3: a signature expiring in two days forces a write with an
advanced serial on byte-identical text; one expiring in ten days leaves the
identical zone untouched. -/
theorem claim3_witness :
    (∃ s', write_nsd_zone "a" "b" []
        (some (pyReplace (render_zone "a" "b" []) "__SERIAL__" "2024060100"))
        (some " RRSIG SOA 7 2 86400 20240603000000") ⟨2024, 6, 1, 0, 0, 0⟩
      = some ⟨some (pyReplace (render_zone "a" "b" []) "__SERIAL__" s'), true⟩
      ∧ (("2024060100" : String).length = (dateSerial ⟨2024, 6, 1, 0, 0, 0⟩).length →
         (∀ c ∈ ("2024060100" : String).data, c.isDigit = true) →
         (∀ c ∈ (dateSerial ⟨2024, 6, 1, 0, 0, 0⟩).data, c.isDigit = true) →
         (s' = toString (strToNat "2024060100" + 1)
          ∨ (s' = dateSerial ⟨2024, 6, 1, 0, 0, 0⟩
             ∧ strToNat "2024060100" < strToNat (dateSerial ⟨2024, 6, 1, 0, 0, 0⟩)))))
    ∧ write_nsd_zone "a" "b" []
        (some (pyReplace (render_zone "a" "b" []) "__SERIAL__" "2024060100"))
        (some " RRSIG SOA 7 2 86400 20240611000000") ⟨2024, 6, 1, 0, 0, 0⟩
      = some ⟨none, false⟩ := by
  constructor
  · exact (claim3_forced_bump "a" "b" []
      (pyReplace (render_zone "a" "b" []) "__SERIAL__" "2024060100")
      (some " RRSIG SOA 7 2 86400 20240603000000") ⟨2024, 6, 1, 0, 0, 0⟩
      "2024060100     ; serial number" "2024060100" (by decide) (by decide)).1
      (Or.inr ⟨" RRSIG SOA 7 2 86400 20240603000000", "20240603000000", ⟨2024, 6, 3, 0, 0, 0⟩,
        rfl, by decide, by decide, by decide, by decide⟩)
  · exact (claim3_forced_bump "a" "b" []
      (pyReplace (render_zone "a" "b" []) "__SERIAL__" "2024060100")
      (some " RRSIG SOA 7 2 86400 20240611000000") ⟨2024, 6, 1, 0, 0, 0⟩
      "2024060100     ; serial number" "2024060100" (by decide) (by decide)).2
      " RRSIG SOA 7 2 86400 20240611000000" "20240611000000" ⟨2024, 6, 11, 0, 0, 0⟩
      rfl (by decide) (by decide) (by decide) (by decide)

/-- Claim C10: when the existing zone file has no line matching the
serial-number pattern, `write_nsd_zone` always rewrites the file and
returns True — whatever the rest of the contents — and it uses the bare
date-based serial, without consulting any previously stored serial. -/
theorem claim10_no_serial_line (domain primary : String) (records : List ZRec)
    (existing_zone : String) (signedContents : Option String) (now : DateTime) (fb : Bool)
    (hs : searchSerial existing_zone = none)
    (hfb : force_bump signedContents now = some fb) :
    write_nsd_zone domain primary records (some existing_zone) signedContents now
      = some ⟨some (pyReplace (render_zone domain primary records) "__SERIAL__"
          (dateSerial now)), true⟩ := by
  unfold write_nsd_zone
  rw [hfb]
  dsimp only
  rw [hs]

set_option maxRecDepth 200000 in
/-- Witness for C10 at a file with no serial line. -/
theorem claim10_witness :
    searchSerial "hello" = none
    ∧ write_nsd_zone "a" "b" [] (some "hello") none ⟨2024, 6, 1, 0, 0, 0⟩
      = some ⟨some (pyReplace (render_zone "a" "b" []) "__SERIAL__" "2024060100"), true⟩ := by
  refine ⟨by decide, ?_⟩
  exact (claim10_no_serial_line "a" "b" [] "hello" none ⟨2024, 6, 1, 0, 0, 0⟩ true
    (by decide) rfl).trans (by decide)

/-! Helper lemmas for the zone-apex selection. -/

theorem pyEndsWith_iff (s t : String) : pyEndsWith s t = true ↔ t.data <:+ s.data := by
  simp [pyEndsWith]

theorem dot_data (z : String) : ("." ++ z).data = '.' :: z.data := rfl

theorem pyEndsWith_length {s t : String} (h : pyEndsWith s t = true) : t.length ≤ s.length :=
  ((pyEndsWith_iff s t).mp h).length_le

theorem pyEndsWith_dot_length {s t : String} (h : pyEndsWith s ("." ++ t) = true) :
    t.length + 1 ≤ s.length := by
  have h1 := pyEndsWith_length h
  rw [String.length_append] at h1
  have h2 : ("." : String).length = 1 := rfl
  omega

theorem zone_scan_sub (x : String) : ∀ (rest acc : List String),
    x ∈ acc → x ∈ zone_domains_scan acc rest
  | [], _, hx => hx
  | d :: rest, acc, hx => by
    unfold zone_domains_scan
    by_cases h : acc.any (fun p => pyEndsWith d ("." ++ p)) = true
    · rw [if_pos h]
      exact zone_scan_sub x rest acc hx
    · rw [if_neg h]
      exact zone_scan_sub x rest (acc ++ [d]) (List.mem_append_left _ hx)

theorem zone_scan_good : ∀ (rest acc : List String),
    (∀ p ∈ acc, ∀ d ∈ rest, p.length ≤ d.length) →
    rest.Pairwise (fun a b => a.length ≤ b.length) →
    (∀ p ∈ acc, ∀ q ∈ acc, pyEndsWith p ("." ++ q) = false) →
    ((∀ p ∈ zone_domains_scan acc rest, ∀ q ∈ zone_domains_scan acc rest,
        pyEndsWith p ("." ++ q) = false)
     ∧ ∀ d ∈ rest, ∃ z ∈ zone_domains_scan acc rest,
        (z = d ∨ pyEndsWith d ("." ++ z) = true))
  | [], acc, _, _, h3 => by
    exact ⟨by simpa [zone_domains_scan] using h3, by simp⟩
  | d :: rest, acc, h1, h2, h3 => by
    rw [List.pairwise_cons] at h2
    obtain ⟨hdlen, h2'⟩ := h2
    unfold zone_domains_scan
    by_cases hc : acc.any (fun p => pyEndsWith d ("." ++ p)) = true
    · rw [if_pos hc]
      have h1' : ∀ p ∈ acc, ∀ e ∈ rest, p.length ≤ e.length :=
        fun p hp e he => h1 p hp e (List.mem_cons_of_mem d he)
      obtain ⟨ha, hcov⟩ := zone_scan_good rest acc h1' h2' h3
      refine ⟨ha, ?_⟩
      intro e he
      rcases List.mem_cons.mp he with rfl | he'
      · obtain ⟨p, hp, hps⟩ := List.any_eq_true.mp hc
        exact ⟨p, zone_scan_sub p rest acc hp, Or.inr hps⟩
      · exact hcov e he'
    · rw [if_neg hc]
      have hnone : ∀ p ∈ acc, pyEndsWith d ("." ++ p) = false := by
        have := List.any_eq_false.mp (Bool.not_eq_true _ ▸ hc : acc.any _ = false)
        intro p hp
        exact Bool.not_eq_true _ ▸ (this p hp)
      have h1'' : ∀ p ∈ acc ++ [d], ∀ e ∈ rest, p.length ≤ e.length := by
        intro p hp e he
        rcases List.mem_append.mp hp with hp' | hp'
        · exact h1 p hp' e (List.mem_cons_of_mem d he)
        · rw [List.mem_singleton.mp hp']
          exact hdlen e he
      have h3'' : ∀ p ∈ acc ++ [d], ∀ q ∈ acc ++ [d], pyEndsWith p ("." ++ q) = false := by
        intro p hp q hq
        rcases List.mem_append.mp hp with hp' | hp' <;>
          rcases List.mem_append.mp hq with hq' | hq'
        · exact h3 p hp' q hq'
        · rw [List.mem_singleton.mp hq']
          cases hE : pyEndsWith p ("." ++ d) with
          | false => rfl
          | true =>
            have hle := pyEndsWith_dot_length hE
            have := h1 p hp' d (List.mem_cons_self d rest)
            omega
        · rw [List.mem_singleton.mp hp']
          exact hnone q hq'
        · rw [List.mem_singleton.mp hp', List.mem_singleton.mp hq']
          cases hE : pyEndsWith d ("." ++ d) with
          | false => rfl
          | true =>
            have := pyEndsWith_dot_length hE
            omega
      obtain ⟨ha, hcov⟩ := zone_scan_good rest (acc ++ [d]) h1'' h2' h3''
      refine ⟨ha, ?_⟩
      intro e he
      rcases List.mem_cons.mp he with rfl | he'
      · exact ⟨e, zone_scan_sub e rest (acc ++ [e]) (by simp), Or.inl rfl⟩
      · exact hcov e he'

theorem cover_unique (R : List String)
    (hA : ∀ p ∈ R, ∀ q ∈ R, pyEndsWith p ("." ++ q) = false)
    (d z1 z2 : String) (h1 : z1 ∈ R) (h2 : z2 ∈ R)
    (c1 : z1 = d ∨ pyEndsWith d ("." ++ z1) = true)
    (c2 : z2 = d ∨ pyEndsWith d ("." ++ z2) = true) : z1 = z2 := by
  rcases c1 with rfl | s1
  · rcases c2 with rfl | s2
    · rfl
    · exact absurd s2 (by simp [hA z1 h1 z2 h2])
  · rcases c2 with rfl | s2
    · exact absurd s1 (by simp [hA z2 h2 z1 h1])
    · have s1' : ('.' :: z1.data) <:+ d.data := by
        have := (pyEndsWith_iff d ("." ++ z1)).mp s1
        rwa [dot_data] at this
      have s2' : ('.' :: z2.data) <:+ d.data := by
        have := (pyEndsWith_iff d ("." ++ z2)).mp s2
        rwa [dot_data] at this
      rcases List.suffix_or_suffix_of_suffix s1' s2' with h | h
      · rcases List.suffix_cons_iff.mp h with heq | hsuf
        · have hdd : z1.data = z2.data := by injection heq
          exact String.ext hdd
        · have : pyEndsWith z2 ("." ++ z1) = true := by
            rw [pyEndsWith_iff, dot_data]
            exact hsuf
          exact absurd this (by simp [hA z2 h2 z1 h1])
      · rcases List.suffix_cons_iff.mp h with heq | hsuf
        · have hdd : z2.data = z1.data := by injection heq
          exact (String.ext hdd).symm
        · have : pyEndsWith z1 ("." ++ z2) = true := by
            rw [pyEndsWith_iff, dot_data]
            exact hsuf
          exact absurd this (by simp [hA z1 h1 z2 h2])

/-- Claim C4: for in-use domains listed shortest-first (ties in any order)
and duplicate-free, every domain is covered by exactly one returned apex —
itself or a dot-boundary ancestor — and no returned apex is a strict
subdomain of another returned apex; in particular the set
`{a.example, b.example, sub.a.example}` yields exactly
`{a.example, b.example}`. -/
theorem claim4_zone_apexes :
    (∀ (domains : List String),
      domains.Pairwise (fun a b => a.length ≤ b.length) →
      domains.Nodup →
      ((∀ d ∈ domains, ∃! z, z ∈ get_dns_zones_domains domains
          ∧ (z = d ∨ pyEndsWith d ("." ++ z) = true))
       ∧ ∀ z1 ∈ get_dns_zones_domains domains, ∀ z2 ∈ get_dns_zones_domains domains,
          pyEndsWith z1 ("." ++ z2) = false))
    ∧ get_dns_zones_domains ["a.example", "b.example", "sub.a.example"]
        = ["a.example", "b.example"] := by
  constructor
  · intro domains hsor _
    obtain ⟨ha, hcov⟩ := zone_scan_good domains []
      (by intro p hp; exact absurd hp (List.not_mem_nil p)) hsor
      (by intro p hp; exact absurd hp (List.not_mem_nil p))
    refine ⟨?_, ha⟩
    intro d hd
    obtain ⟨z, hz, hzc⟩ := hcov d hd
    refine ⟨z, ⟨hz, hzc⟩, ?_⟩
    intro y hy
    exact cover_unique (get_dns_zones_domains domains) ha d y z hy.1 hz hy.2 hzc
  · decide

/-- Witness for C4 at the concrete three-domain set from the claim. -/
theorem claim4_witness :
    (∀ d ∈ ["a.example", "b.example", "sub.a.example"],
      ∃! z, z ∈ get_dns_zones_domains ["a.example", "b.example", "sub.a.example"]
        ∧ (z = d ∨ pyEndsWith d ("." ++ z) = true))
    ∧ ∀ z1 ∈ get_dns_zones_domains ["a.example", "b.example", "sub.a.example"],
      ∀ z2 ∈ get_dns_zones_domains ["a.example", "b.example", "sub.a.example"],
        pyEndsWith z1 ("." ++ z2) = false :=
  claim4_zone_apexes.1 ["a.example", "b.example", "sub.a.example"] (by decide) (by decide)

/-! Helper lemmas about the record-building steps. -/

theorem foldl_mono {α β : Type} (g : List β → α → List β)
    (hg : ∀ acc a, ∀ x ∈ acc, x ∈ g acc a) :
    ∀ (l : List α) (acc : List β) (x : β), x ∈ acc → x ∈ l.foldl g acc
  | [], _, _, hx => hx
  | a :: l, acc, x, hx => foldl_mono g hg l (g acc a) x (hg acc a x hx)

theorem mem_apply_overrides (domain : String) (additional : List (String × OverrideVal))
    (records : List ZRec) (x : ZRec) (hx : x ∈ records) :
    x ∈ apply_overrides domain additional records := by
  apply foldl_mono _ _ additional records x hx
  intro acc qv y hy
  rcases qv with ⟨q, v⟩
  dsimp only
  rcases v with s | entries <;> split_ifs <;>
    first | exact hy | exact List.mem_append_left _ hy

theorem apply_overrides_nil (domain : String) (records : List ZRec) :
    apply_overrides domain [] records = records := rfl

theorem mem_add_defaults (env : Env) (records : List ZRec) (x : ZRec) (hx : x ∈ records) :
    x ∈ add_defaults env records := by
  unfold add_defaults
  split_ifs <;> simp [hx]

theorem mem_of_mem_append_if {x : ZRec} {l y : List ZRec} {c : Prop} [Decidable c]
    (h : x ∈ l ++ if c then y else []) : x ∈ l ∨ x ∈ y := by
  split_ifs at h
  · exact List.mem_append.mp h
  · simp only [List.append_nil] at h
    exact Or.inl h

theorem add_defaults_subset (env : Env) (records : List ZRec) :
    add_defaults env records ⊆ records ++
      [(none, "A", env.PUBLIC_IP), (none, "AAAA", env.PUBLIC_IPV6.getD ""),
       (some "www", "A", env.PUBLIC_IP), (some "www", "AAAA", env.PUBLIC_IPV6.getD "")] := by
  intro x hx
  unfold add_defaults at hx
  rcases mem_of_mem_append_if hx with hx | h4
  · rcases mem_of_mem_append_if hx with hx | h3
    · rcases mem_of_mem_append_if hx with hx | h2
      · rcases mem_of_mem_append_if hx with hx | h1
        · exact List.mem_append_left _ hx
        · simp only [List.mem_singleton] at h1
          simp [h1]
      · simp only [List.mem_singleton] at h2
        simp [h2]
    · simp only [List.mem_singleton] at h3
      simp [h3]
  · simp only [List.mem_singleton] at h4
    simp [h4]

/-- Claim C5 (the failing input): the built-in primary-hostname step already
fixes the record pair `(ns1, A)`, yet the user override for `ns1` of the
primary zone is appended anyway — `has_rec` is called with the override
*value* in place of the record type, so the duplicate check never fires —
and the result carries two `(ns1, A)` records. -/
theorem claim5_override_duplicates_builtin :
    ((build_zone ⟨"box.example", "10.0.0.1", none, "aa"⟩ none "box.example" []
        [("ns1.box.example", .map [("A", "9.9.9.9")])] true).countP
      (fun r => decide (r.1 = some "ns1") && decide (r.2.1 = "A"))) = 2
    ∧ (some "ns1", "A", "10.0.0.1") ∈ build_zone ⟨"box.example", "10.0.0.1", none, "aa"⟩ none
        "box.example" [] [("ns1.box.example", .map [("A", "9.9.9.9")])] true
    ∧ (some "ns1", "A", "9.9.9.9") ∈ build_zone ⟨"box.example", "10.0.0.1", none, "aa"⟩ none
        "box.example" [] [("ns1.box.example", .map [("A", "9.9.9.9")])] true := by
  exact ⟨by decide, by decide, by decide⟩

/-- Counterexample to claim C6 as stated: with valid key material but a
failing external signer, `sign_zone` propagates the error while all four
specialized temporary key files remain on disk — nothing is deleted. -/
theorem claim6_counterexample :
    sign_zone "/s" "ex.com" [("KSK", "ksk_domain_"), ("ZSK", "zsk_domain_")]
        (fun _ => true) false true
      = ⟨["/tmp/kskex.com.private", "/tmp/kskex.com.key",
          "/tmp/zskex.com.private", "/tmp/zskex.com.key"], [], some .toolFailed⟩ := by
  decide

/-- Amended claim C6: once the specialized temporary key files have been
created, they are deleted only on the all-success path; if the external
signing or DS-derivation step fails, the error propagates and none of the
temporary files is deleted. -/
theorem claim6_cleanup_on_success (storage domain : String)
    (dnssec_keys : List (String × String)) (exists_ : String → Bool) (signOk dsOk : Bool)
    (kf zf : List String)
    (hk : specializeKey storage domain dnssec_keys exists_ "KSK" = (kf, none))
    (hz : specializeKey storage domain dnssec_keys exists_ "ZSK" = (zf, none)) :
    sign_zone storage domain dnssec_keys exists_ signOk dsOk
      = if signOk ∧ dsOk then ⟨kf ++ zf, kf ++ zf, none⟩
        else ⟨kf ++ zf, [], some .toolFailed⟩ := by
  unfold sign_zone
  rw [hk]
  dsimp only
  rw [hz]
  dsimp only
  cases signOk with
  | false => simp
  | true =>
    cases dsOk with
    | false => simp
    | true => simp

/-- Witness for the amended C6: with both external steps succeeding, all
four temporary key files are created and all four are deleted. -/
theorem claim6_witness :
    sign_zone "/s" "ex.com" [("KSK", "ksk_domain_"), ("ZSK", "zsk_domain_")]
        (fun _ => true) true true
      = ⟨["/tmp/kskex.com.private", "/tmp/kskex.com.key",
          "/tmp/zskex.com.private", "/tmp/zskex.com.key"],
         ["/tmp/kskex.com.private", "/tmp/kskex.com.key",
          "/tmp/zskex.com.private", "/tmp/zskex.com.key"], none⟩ := by
  have h := claim6_cleanup_on_success "/s" "ex.com"
    [("KSK", "ksk_domain_"), ("ZSK", "zsk_domain_")] (fun _ => true) true true
    ["/tmp/kskex.com.private", "/tmp/kskex.com.key"]
    ["/tmp/zskex.com.private", "/tmp/zskex.com.key"] (by decide) (by decide)
  exact h.trans (by decide)

/-- Counterexample to claim C7 as stated: a recursive subdomain expansion
(`with_ns = False`) does contain the MX record and the SPF TXT record. -/
theorem claim7_counterexample :
    (none, "MX", "10 box.")
      ∈ build_zone ⟨"box", "1.2.3.4", none, "aa"⟩ none "sub.example" [] [] false
    ∧ (none, "TXT", "\"v=spf1 mx -all\"")
      ∈ build_zone ⟨"box", "1.2.3.4", none, "aa"⟩ none "sub.example" [] [] false := by
  exact ⟨by decide, by decide⟩

/-- Amended claim C7: only the two NS records are restricted to top-level
zone builds; the MX record and the SPF TXT record are emitted in every
build, including recursive subdomain expansions.  A recursive expansion
(no subdomains, no overrides, `with_ns = False`) contains no NS record at
all, while a top-level build contains both NS records. -/
theorem claim7_ns_only_top_level (env : Env) (dkim : Option (String × String))
    (domain : String) (subdomains : List String)
    (additional : List (String × OverrideVal)) :
    ((none, "MX", "10 " ++ env.PRIMARY_HOSTNAME ++ ".")
        ∈ build_zone env dkim domain subdomains additional false
     ∧ (none, "TXT", "\"v=spf1 mx -all\"")
        ∈ build_zone env dkim domain subdomains additional false)
    ∧ ((none, "NS", "ns1." ++ env.PRIMARY_HOSTNAME ++ ".")
        ∈ build_zone env dkim domain subdomains additional true
     ∧ (none, "NS", "ns2." ++ env.PRIMARY_HOSTNAME ++ ".")
        ∈ build_zone env dkim domain subdomains additional true)
    ∧ (∀ q v, (q, "NS", v) ∉ build_zone env dkim domain [] [] false) := by
  refine ⟨⟨?_, ?_⟩, ⟨?_, ?_⟩, ?_⟩
  · rw [build_zone, List.mem_insertionSort]
    show _ ∈ build_zone_records env dkim 2 domain subdomains additional false
    rw [build_zone_records]
    refine List.mem_append_left _ (mem_add_defaults env _ _ (mem_apply_overrides domain _ _ _ ?_))
    exact List.mem_append_left _ (List.mem_append_left _ (by simp [base_records]))
  · rw [build_zone, List.mem_insertionSort]
    show _ ∈ build_zone_records env dkim 2 domain subdomains additional false
    rw [build_zone_records]
    refine List.mem_append_left _ (mem_add_defaults env _ _ (mem_apply_overrides domain _ _ _ ?_))
    exact List.mem_append_left _ (List.mem_append_left _ (by simp [base_records]))
  · rw [build_zone, List.mem_insertionSort]
    show _ ∈ build_zone_records env dkim 2 domain subdomains additional true
    rw [build_zone_records]
    refine List.mem_append_left _ (mem_add_defaults env _ _ (mem_apply_overrides domain _ _ _ ?_))
    exact List.mem_append_left _ (List.mem_append_left _ (by simp [base_records]))
  · rw [build_zone, List.mem_insertionSort]
    show _ ∈ build_zone_records env dkim 2 domain subdomains additional true
    rw [build_zone_records]
    refine List.mem_append_left _ (mem_add_defaults env _ _ (mem_apply_overrides domain _ _ _ ?_))
    exact List.mem_append_left _ (List.mem_append_left _ (by simp [base_records]))
  · intro q v hmem
    rw [build_zone, List.mem_insertionSort] at hmem
    have hmem' : (q, "NS", v) ∈ build_zone_records env dkim 2 domain [] [] false := hmem
    rw [build_zone_records] at hmem'
    rcases List.mem_append.mp hmem' with h1 | h1
    · have h2 := add_defaults_subset env _ h1
      rw [List.mem_append] at h2
      rcases h2 with h2 | h2
      · rw [apply_overrides_nil] at h2
        simp only [List.flatMap_nil, List.append_nil, List.mem_append] at h2
        rcases h2 with h3 | h3
        · simp [base_records] at h3
        · unfold primary_records at h3
          split_ifs at h3 <;> simp_all
      · simp at h2
    · unfold dkim_records at h1
      cases dkim <;> simp_all

/-! Helper lemmas about the sort of line 202. -/

theorem splitDot_ne_nil : ∀ cs : List Char, splitDot cs ≠ []
  | [] => by simp [splitDot]
  | c :: cs => by
    unfold splitDot
    by_cases h : c = '.'
    · simp [h]
    · rw [if_neg h]
      cases hs : splitDot cs with
      | nil => simp
      | cons p ps => simp

theorem sortKey_eq_nil_iff (r : ZRec) : sortKey r = [] ↔ r.1 = none := by
  rcases r with ⟨q, rt, v⟩
  cases q with
  | none => simp [sortKey]
  | some s =>
    simp only [sortKey, reduceCtorEq, iff_false]
    intro h
    exact splitDot_ne_nil s.data (List.reverse_eq_nil_iff.mp h)

theorem filter_orderedInsert_of_ne (a : ZRec) (k : List (List Char)) (h : ¬ sortKey a = k) :
    ∀ l : List ZRec,
      (List.orderedInsert recLE a l).filter (fun r => decide (sortKey r = k))
        = l.filter (fun r => decide (sortKey r = k))
  | [] => by simp [List.orderedInsert, h]
  | b :: l => by
    unfold List.orderedInsert
    by_cases hr : recLE a b
    · rw [if_pos hr]
      simp [List.filter_cons, h]
    · rw [if_neg hr]
      simp only [List.filter_cons]
      rw [filter_orderedInsert_of_ne a k h l]

theorem filter_orderedInsert_of_eq (a : ZRec) (k : List (List Char)) (h : sortKey a = k) :
    ∀ l : List ZRec,
      (List.orderedInsert recLE a l).filter (fun r => decide (sortKey r = k))
        = a :: l.filter (fun r => decide (sortKey r = k))
  | [] => by simp [List.orderedInsert, h]
  | b :: l => by
    unfold List.orderedInsert
    by_cases hr : recLE a b
    · rw [if_pos hr]
      simp [List.filter_cons, h]
    · rw [if_neg hr]
      have hlt : sortKey b < sortKey a := not_le.mp hr
      have hbk : ¬ sortKey b = k := fun hk => absurd (h ▸ hk ▸ hlt) (lt_irrefl _)
      simp only [List.filter_cons]
      rw [filter_orderedInsert_of_eq a k h l]
      simp [hbk]

theorem filter_insertionSort_key (k : List (List Char)) :
    ∀ l : List ZRec,
      (l.insertionSort recLE).filter (fun r => decide (sortKey r = k))
        = l.filter (fun r => decide (sortKey r = k))
  | [] => rfl
  | a :: l => by
    rw [List.insertionSort]
    by_cases h : sortKey a = k
    · rw [filter_orderedInsert_of_eq a k h, filter_insertionSort_key k l]
      simp [List.filter_cons, h]
    · rw [filter_orderedInsert_of_ne a k h, filter_insertionSort_key k l]
      simp [List.filter_cons, h]

/-- Witness for the amended C7 at a concrete environment and subdomain. -/
theorem claim7_witness :
    ((none, "MX", "10 box.")
        ∈ build_zone ⟨"box", "1.2.3.4", none, "aa"⟩ none "sub.example" [] [] false)
    ∧ ((none, "NS", "ns1.box.")
        ∈ build_zone ⟨"box", "1.2.3.4", none, "aa"⟩ none "sub.example" [] [] true)
    ∧ (∀ q v, (q, "NS", v)
        ∉ build_zone ⟨"box", "1.2.3.4", none, "aa"⟩ none "sub.example" [] [] false) := by
  have h := claim7_ns_only_top_level ⟨"box", "1.2.3.4", none, "aa"⟩ none "sub.example" [] []
  exact ⟨h.1.1, h.2.1.1, h.2.2⟩

/-- Claim C8: every `build_zone` result is sorted ascending under the line
202 key — all apex (null-qname) records precede every non-apex record, the
non-apex records are ordered by the reversed dot-separated labels of their
qnames — and the sort is stable: for every key value, the records with that
key appear exactly in the order in which the building steps appended
them. -/
theorem claim8_record_ordering (env : Env) (dkim : Option (String × String))
    (domain : String) (subdomains : List String)
    (additional : List (String × OverrideVal)) (with_ns : Bool) :
    (build_zone env dkim domain subdomains additional with_ns).Sorted recLE
    ∧ (∀ (i j : Nat) (hi : i < (build_zone env dkim domain subdomains additional with_ns).length)
        (hj : j < (build_zone env dkim domain subdomains additional with_ns).length),
        i ≤ j →
        ((build_zone env dkim domain subdomains additional with_ns).get ⟨j, hj⟩).1 = none →
        ((build_zone env dkim domain subdomains additional with_ns).get ⟨i, hi⟩).1 = none)
    ∧ (∀ k : List (List Char),
        (build_zone env dkim domain subdomains additional with_ns).filter
            (fun r => decide (sortKey r = k))
          = (build_zone_unsorted env dkim domain subdomains additional with_ns).filter
              (fun r => decide (sortKey r = k))) := by
  have hsor : (build_zone env dkim domain subdomains additional with_ns).Sorted recLE :=
    List.sorted_insertionSort recLE _
  refine ⟨hsor, ?_, ?_⟩
  · intro i j hi hj hij hjn
    rcases Nat.eq_or_lt_of_le hij with rfl | hlt
    · exact hjn
    · have hrel : recLE ((build_zone env dkim domain subdomains additional with_ns).get ⟨i, hi⟩)
          ((build_zone env dkim domain subdomains additional with_ns).get ⟨j, hj⟩) :=
        hsor.rel_get_of_lt hlt
      have hj0 : sortKey ((build_zone env dkim domain subdomains additional with_ns).get ⟨j, hj⟩)
          = [] := (sortKey_eq_nil_iff _).mpr hjn
      have hle : sortKey ((build_zone env dkim domain subdomains additional with_ns).get ⟨i, hi⟩)
          ≤ [] := hj0 ▸ hrel
      exact (sortKey_eq_nil_iff _).mp (le_antisymm hle List.nil_le)
  · intro k
    exact filter_insertionSort_key k _

/-- Witness for C8 at a concrete zone build. -/
theorem claim8_witness :
    (build_zone ⟨"box", "1.2.3.4", none, "aa"⟩ none "example.com" ["www.example.com"] []
        true).Sorted recLE
    ∧ (∀ (i j : Nat)
        (hi : i < (build_zone ⟨"box", "1.2.3.4", none, "aa"⟩ none "example.com"
          ["www.example.com"] [] true).length)
        (hj : j < (build_zone ⟨"box", "1.2.3.4", none, "aa"⟩ none "example.com"
          ["www.example.com"] [] true).length),
        i ≤ j →
        ((build_zone ⟨"box", "1.2.3.4", none, "aa"⟩ none "example.com"
          ["www.example.com"] [] true).get ⟨j, hj⟩).1 = none →
        ((build_zone ⟨"box", "1.2.3.4", none, "aa"⟩ none "example.com"
          ["www.example.com"] [] true).get ⟨i, hi⟩).1 = none)
    ∧ (∀ k : List (List Char),
        (build_zone ⟨"box", "1.2.3.4", none, "aa"⟩ none "example.com"
            ["www.example.com"] [] true).filter (fun r => decide (sortKey r = k))
          = (build_zone_unsorted ⟨"box", "1.2.3.4", none, "aa"⟩ none "example.com"
              ["www.example.com"] [] true).filter (fun r => decide (sortKey r = k))) :=
  claim8_record_ordering ⟨"box", "1.2.3.4", none, "aa"⟩ none "example.com"
    ["www.example.com"] [] true

/-- Claim C9: a non-primary apex built with no overrides and no DKIM
material carries exactly one apex A record and exactly one `www` A record,
both with the public IPv4 address; the override mapping the apex type A to
`9.9.9.9` suppresses the default apex A record, leaving `9.9.9.9` as the
apex's only A record. -/
theorem claim9_default_records (env : Env) (domain : String)
    (hne : domain ≠ env.PRIMARY_HOSTNAME) :
    (build_zone env none domain [] [] true).filter
        (fun r => decide (r.1 = none) && decide (r.2.1 = "A"))
      = [(none, "A", env.PUBLIC_IP)]
    ∧ (build_zone env none domain [] [] true).filter
        (fun r => decide (r.1 = some "www") && decide (r.2.1 = "A"))
      = [(some "www", "A", env.PUBLIC_IP)]
    ∧ (build_zone env none domain [] [(domain, .map [("A", "9.9.9.9")])] true).filter
        (fun r => decide (r.1 = none) && decide (r.2.1 = "A"))
      = [(none, "A", "9.9.9.9")] := by
  have hc1 : (build_zone_unsorted env none domain [] [] true).filter
      (fun r => decide (r.1 = none) && decide (r.2.1 = "A"))
      = [(none, "A", env.PUBLIC_IP)] := by
    unfold build_zone_unsorted
    rw [build_zone_records, apply_overrides_nil]
    simp only [List.flatMap_nil, List.append_nil, primary_records, if_neg hne, dkim_records]
    unfold add_defaults
    split_ifs <;> simp_all [has_rec, base_records, List.filter_append]
  have hc2 : (build_zone_unsorted env none domain [] [] true).filter
      (fun r => decide (r.1 = some "www") && decide (r.2.1 = "A"))
      = [(some "www", "A", env.PUBLIC_IP)] := by
    unfold build_zone_unsorted
    rw [build_zone_records, apply_overrides_nil]
    simp only [List.flatMap_nil, List.append_nil, primary_records, if_neg hne, dkim_records]
    unfold add_defaults
    split_ifs <;> simp_all [has_rec, base_records, List.filter_append]
    split_ifs <;> simp_all
  have hc3 : (build_zone_unsorted env none domain [] [(domain, .map [("A", "9.9.9.9")])] true).filter
      (fun r => decide (r.1 = none) && decide (r.2.1 = "A"))
      = [(none, "A", "9.9.9.9")] := by
    unfold build_zone_unsorted
    rw [build_zone_records]
    simp only [List.flatMap_nil, List.append_nil, primary_records, if_neg hne, dkim_records]
    rw [show apply_overrides domain [(domain, .map [("A", "9.9.9.9")])] (base_records env true)
        = base_records env true ++ [(none, "A", "9.9.9.9")] by
      simp [apply_overrides, has_rec_value]]
    unfold add_defaults
    split_ifs <;> simp_all [has_rec, base_records, List.filter_append]
  refine ⟨?_, ?_, ?_⟩
  · rw [build_zone]
    exact List.perm_singleton.mp
      (((List.perm_insertionSort recLE _).filter _).trans (hc1 ▸ List.Perm.refl _))
  · rw [build_zone]
    exact List.perm_singleton.mp
      (((List.perm_insertionSort recLE _).filter _).trans (hc2 ▸ List.Perm.refl _))
  · rw [build_zone]
    exact List.perm_singleton.mp
      (((List.perm_insertionSort recLE _).filter _).trans (hc3 ▸ List.Perm.refl _))

/-- Witness for C9 at a concrete environment and apex. -/
theorem claim9_witness :
    (build_zone ⟨"box.example", "10.0.0.1", none, "aa"⟩ none "example.com" [] [] true).filter
        (fun r => decide (r.1 = none) && decide (r.2.1 = "A"))
      = [(none, "A", "10.0.0.1")]
    ∧ (build_zone ⟨"box.example", "10.0.0.1", none, "aa"⟩ none "example.com" [] [] true).filter
        (fun r => decide (r.1 = some "www") && decide (r.2.1 = "A"))
      = [(some "www", "A", "10.0.0.1")]
    ∧ (build_zone ⟨"box.example", "10.0.0.1", none, "aa"⟩ none "example.com" []
        [("example.com", .map [("A", "9.9.9.9")])] true).filter
        (fun r => decide (r.1 = none) && decide (r.2.1 = "A"))
      = [(none, "A", "9.9.9.9")] :=
  claim9_default_records ⟨"box.example", "10.0.0.1", none, "aa"⟩ "example.com" (by decide)

end DnsUpdate
